import Mathlib

/-!
Verification of the middleware pipeline engine of `nextjs-middleware-runner`
(`src/middleware-runner.ts`, `src/types.ts`).

The TypeScript code is shallowly embedded: code that may throw is modelled
with `Except Err`, `async`/`await` is modelled by direct sequential calls
(the engine awaits every handler before moving on), and the framework's
opaque request/response values are modelled by small concrete structures
exposing exactly the operations the engine uses.
-/

/-- Error values thrown by user-supplied code (handlers or predicate
matchers); the engine only logs the message, so a plain string models it. -/
abbrev Err := String

/-- Model of the host framework's URL object; the engine reads only
`nextUrl.pathname` from a request. -/
structure NextUrl where
  pathname : String
deriving DecidableEq

/-- Model of `NextRequest`: opaque to the engine except for its path. -/
structure NextRequest where
  nextUrl : NextUrl
deriving DecidableEq

/-- Model of `NextResponse`: `next` is `NextResponse.next()` (the
pass-through default), `make body status` is `new NextResponse(body, { status })`. -/
inductive NextResponse where
  | next : NextResponse
  | make (body : String) (status : Nat) : NextResponse
deriving DecidableEq

/-- `MiddlewareContext` from `src/types.ts`: the request/response pair
threaded through one run. -/
structure MiddlewareContext where
  request : NextRequest
  response : NextResponse
deriving DecidableEq

/-- `MiddlewareResult` from `src/types.ts`. -/
structure MiddlewareResult where
  shouldContinue : Bool
  response : Option NextResponse
deriving DecidableEq

/-- `MatcherPattern` from `src/types.ts`: a single pattern string, a list of
pattern strings, or a predicate on the path.  A predicate is arbitrary
user code and may throw, hence `Except Err Bool`. -/
inductive MatcherPattern where
  | str (s : String)
  | list (ps : List String)
  | fn (f : String → Except Err Bool)

/-- `MiddlewareConfig` from `src/types.ts`; every field is optional. -/
structure MiddlewareConfig where
  matcher : Option MatcherPattern := none
  priority : Option Int := none
  name : Option String := none
  skipOnError : Option Bool := none

/-- `MiddlewareFunction` from `src/types.ts`: `execute` may throw, hence
`Except Err`; the `Promise` wrapper is modelled away because the engine
always awaits it immediately. -/
structure MiddlewareFunction where
  execute : MiddlewareContext → Except Err MiddlewareResult

/-- `Middleware` from `src/types.ts`: a handler plus its configuration. -/
structure Middleware where
  middleware : MiddlewareFunction
  config : MiddlewareConfig

/-- Model of JavaScript `s.startsWith(pre)` (kept as a list computation so
that proofs can evaluate it). -/
def strStartsWith (s pre : String) : Bool :=
  pre.toList.isPrefixOf s.toList

/-- Character class of the JavaScript regex token `\w`: ASCII letters,
digits and underscore. -/
def isWordChar (c : Char) : Bool :=
  c.isAlphanum || c == '_'

/-- Tokens of the regular expressions built by `matchPath`:
a literal character, `[^/]+` (one or more non-slash characters),
`.*` (any run of characters other than line terminators, slashes included),
and `.` (exactly one character other than a line terminator). -/
inductive Tok where
  | lit (c : Char)
  | nonSlash
  | star
  | anyOne
deriving DecidableEq

/-- Line terminators of JavaScript: `.` and `.*` in a regex without the `s`
flag do not match these, while a negated class such as `[^/]` does. -/
def isLineTerminator (c : Char) : Bool :=
  c == '\n' || c == '\r' || c == '\u2028' || c == '\u2029'

/-- Compilation performed by the parameter-marker branch of `matchPath`:
`pattern.replace(/:\w+/g, '[^/]+').replace(/\[(\w+)\]/g, '[^/]+').replace(/\*\/g, '.*')`.
A colon followed by word characters becomes `[^/]+`, a bracketed word
becomes `[^/]+`, each `*` becomes `.*`, everything else stays a literal.
Residual regex metacharacters are treated as literals here; the embedding
that keeps them live (and keeps the `new RegExp` error path) is
`compileParamE` below, and the two agree on patterns whose compilation
succeeds with no residual `.` (`compileParamE_ok_eq`).
The `fuel` argument only bounds the recursion depth; it is always called
with more fuel than there are characters, so the `0` case is unreachable. -/
def compileParamGo : Nat → List Char → List Tok
  | 0, _ => []
  | _ + 1, [] => []
  | fuel + 1, ':' :: rest =>
    if (rest.takeWhile isWordChar).isEmpty then
      Tok.lit ':' :: compileParamGo fuel rest
    else
      Tok.nonSlash :: compileParamGo fuel (rest.dropWhile isWordChar)
  | fuel + 1, '[' :: rest =>
    match rest.dropWhile isWordChar with
    | ']' :: rest' =>
      if (rest.takeWhile isWordChar).isEmpty then
        Tok.lit '[' :: compileParamGo fuel rest
      else
        Tok.nonSlash :: compileParamGo fuel rest'
    | _ => Tok.lit '[' :: compileParamGo fuel rest
  | fuel + 1, '*' :: rest => Tok.star :: compileParamGo fuel rest
  | fuel + 1, c :: rest => Tok.lit c :: compileParamGo fuel rest

/-- Token compilation for the parameter-marker branch of `matchPath`. -/
def compileParam (cs : List Char) : List Tok :=
  compileParamGo (cs.length + 1) cs

/-- Compilation performed by the generic wildcard branch of `matchPath`:
`pattern.replace(/\*\/g, '.*').replace(/\?/g, '.')`.  Residual regex
metacharacters are treated as literals here; the embedding that keeps
them live is `compileWildcardE` below, agreeing on patterns whose
compilation succeeds with no residual `.` (`compileWildcardE_ok_eq`). -/
def compileWildcard : List Char → List Tok
  | [] => []
  | '*' :: rest => Tok.star :: compileWildcard rest
  | '?' :: rest => Tok.anyOne :: compileWildcard rest
  | c :: rest => Tok.lit c :: compileWildcard rest

/-- Anchored matching of a token list against a character list, the
semantics of testing the compiled regex `^...$` against the full path.
`[^/]+` consumes one or more non-slash characters (line terminators
included, as for any negated class); `.*` and `.` consume only characters
that are not line terminators, as JavaScript `.` does without the `s`
flag.  The `fuel` argument only bounds the recursion depth: every step
consumes a token or a character, so `toksMatch` below always supplies
enough fuel and the `0` case is unreachable. -/
def toksMatchGo : Nat → List Tok → List Char → Bool
  | 0, _, _ => false
  | _ + 1, [], [] => true
  | _ + 1, [], _ :: _ => false
  | _ + 1, Tok.lit _ :: _, [] => false
  | fuel + 1, Tok.lit c :: ts, x :: xs => c == x && toksMatchGo fuel ts xs
  | _ + 1, Tok.anyOne :: _, [] => false
  | fuel + 1, Tok.anyOne :: ts, x :: xs => !(isLineTerminator x) && toksMatchGo fuel ts xs
  | fuel + 1, Tok.star :: ts, [] => toksMatchGo fuel ts []
  | fuel + 1, Tok.star :: ts, x :: xs =>
    toksMatchGo fuel ts (x :: xs) || (!(isLineTerminator x) && toksMatchGo fuel (Tok.star :: ts) xs)
  | _ + 1, Tok.nonSlash :: _, [] => false
  | fuel + 1, Tok.nonSlash :: ts, x :: xs =>
    !(x == '/') && (toksMatchGo fuel ts xs || toksMatchGo fuel (Tok.nonSlash :: ts) xs)

/-- Anchored regex test of a compiled token list against a path. -/
def toksMatch (ts : List Tok) (cs : List Char) : Bool :=
  toksMatchGo (ts.length + cs.length + 1) ts cs

/-- `MiddlewareRunner.matchPath` from `src/middleware-runner.ts`,
restricted to patterns whose residual characters are regex-literal:
the literal `*` matches everything; a pattern containing `:` or `[` is
compiled by the parameter-marker branch; otherwise a pattern containing
`*` is compiled by the generic wildcard branch; otherwise the pattern
matches iff the path equals it or starts with it.  The source feeds the
replaced pattern to `new RegExp`, so residual regex metacharacters stay
live and a malformed residual throws; that full behaviour is embedded by
`matchPathE` below, which agrees with this function on patterns that
compile and contain no residual `.` (`matchPathE_agrees`). -/
def matchPath (path pattern : String) : Bool :=
  if pattern == "*" then true
  else if pattern.toList.contains ':' || pattern.toList.contains '[' then
    toksMatch (compileParam pattern.toList) path.toList
  else if pattern.toList.contains '*' then
    toksMatch (compileWildcard pattern.toList) path.toList
  else path == pattern || strStartsWith path pattern

/-- Residual regex metacharacters of the parameter-marker branch that this
model does not interpret: when one survives the replacements, the source
still feeds it to `new RegExp`, where it is live regex syntax (sometimes
valid, sometimes a SyntaxError).  `compileParamE` maps them to an error,
conservatively treating such patterns as outside the modelled subset. -/
def unsupportedRegexChars : List Char :=
  ['+', '?', '(', ')', '{', '}', '|', '^', '$', '\\', ']']

/-- Full embedding of the parameter-marker compilation including the
`new RegExp` behaviour on residual characters: marker tokens and `*` are
compiled as in `compileParamGo`; a residual `.` is a live any-character
wildcard (`Tok.anyOne`); a `[` that does not form a bracket token makes
regex construction fail — a genuine SyntaxError when the class is never
closed (no later `]`), and a conservative "unsupported regex construct"
error when the residual would be a valid class this model does not
interpret; the other residual metacharacters are likewise conservatively
mapped to "unsupported regex construct". -/
def compileParamE : Nat → List Char → Except Err (List Tok)
  | 0, _ => Except.ok []
  | _ + 1, [] => Except.ok []
  | fuel + 1, ':' :: rest =>
    if (rest.takeWhile isWordChar).isEmpty then
      match compileParamE fuel rest with
      | Except.ok ts => Except.ok (Tok.lit ':' :: ts)
      | e => e
    else
      match compileParamE fuel (rest.dropWhile isWordChar) with
      | Except.ok ts => Except.ok (Tok.nonSlash :: ts)
      | e => e
  | fuel + 1, '[' :: rest =>
    match rest.dropWhile isWordChar with
    | ']' :: rest' =>
      if (rest.takeWhile isWordChar).isEmpty then
        if rest.contains ']' then Except.error "unsupported regex construct"
        else Except.error "SyntaxError"
      else
        match compileParamE fuel rest' with
        | Except.ok ts => Except.ok (Tok.nonSlash :: ts)
        | e => e
    | _ =>
      if rest.contains ']' then Except.error "unsupported regex construct"
      else Except.error "SyntaxError"
  | fuel + 1, '*' :: rest =>
    match compileParamE fuel rest with
    | Except.ok ts => Except.ok (Tok.star :: ts)
    | e => e
  | fuel + 1, '.' :: rest =>
    match compileParamE fuel rest with
    | Except.ok ts => Except.ok (Tok.anyOne :: ts)
    | e => e
  | fuel + 1, c :: rest =>
    if c ∈ unsupportedRegexChars then Except.error "unsupported regex construct"
    else
      match compileParamE fuel rest with
      | Except.ok ts => Except.ok (Tok.lit c :: ts)
      | e => e

/-- Fuel wrapper for `compileParamE`, parallel to `compileParam`. -/
def compileParamRegex (cs : List Char) : Except Err (List Tok) :=
  compileParamE (cs.length + 1) cs

/-- Full embedding of the generic wildcard compilation: `*` becomes `.*`
and `?` becomes `.`; a residual `.` is likewise a live any-character
wildcard; the remaining residual metacharacters are conservatively mapped
to an error as in `compileParamE` (a `[` cannot reach this branch from
`matchPathE`, which routes every pattern containing `[` to the
parameter-marker branch). -/
def compileWildcardE : List Char → Except Err (List Tok)
  | [] => Except.ok []
  | '*' :: rest =>
    match compileWildcardE rest with
    | Except.ok ts => Except.ok (Tok.star :: ts)
    | e => e
  | '?' :: rest =>
    match compileWildcardE rest with
    | Except.ok ts => Except.ok (Tok.anyOne :: ts)
    | e => e
  | '.' :: rest =>
    match compileWildcardE rest with
    | Except.ok ts => Except.ok (Tok.anyOne :: ts)
    | e => e
  | c :: rest =>
    if c ∈ ['+', '(', ')', '[', ']', '{', '}', '|', '^', '$', '\\'] then
      Except.error "unsupported regex construct"
    else
      match compileWildcardE rest with
      | Except.ok ts => Except.ok (Tok.lit c :: ts)
      | e => e

/-- Full embedding of `MiddlewareRunner.matchPath`, keeping the error path
of `new RegExp`: the branch structure is that of the source, and the two
regex branches fail exactly when the compilation of the pattern fails.
`matchPath` above is the restriction of this function to patterns whose
compilation succeeds with no live wildcard from a residual `.`. -/
def matchPathE (path pattern : String) : Except Err Bool :=
  if pattern == "*" then Except.ok true
  else if pattern.toList.contains ':' || pattern.toList.contains '[' then
    match compileParamRegex pattern.toList with
    | Except.ok ts => Except.ok (toksMatch ts path.toList)
    | Except.error e => Except.error e
  else if pattern.toList.contains '*' then
    match compileWildcardE pattern.toList with
    | Except.ok ts => Except.ok (toksMatch ts path.toList)
    | Except.error e => Except.error e
  else Except.ok (path == pattern || strStartsWith path pattern)

/-- Positive patterns of a selector: those not starting with `!`. -/
def positivePatterns (patterns : List String) : List String :=
  patterns.filter (fun p => !(strStartsWith p "!"))

/-- Negative patterns of a selector: those starting with `!`, with the `!`
stripped (`p.slice(1)`). -/
def negativePatterns (patterns : List String) : List String :=
  (patterns.filter (fun p => strStartsWith p "!")).map (fun p => p.drop 1)

/-- Pattern-list part of `MiddlewareRunner.shouldRunMiddleware`: a matching
negative pattern excludes the stage; otherwise a selector with no positive
pattern applies; otherwise some positive pattern must match.  (The source
guards the negative check with `negativePatterns.length > 0`, which is
equivalent because `any` of an empty list is `false`.) -/
def patternsApply (path : String) (patterns : List String) : Bool :=
  if (negativePatterns patterns).any (fun pattern => matchPath path pattern) then false
  else if (positivePatterns patterns).isEmpty then true
  else (positivePatterns patterns).any (fun pattern => matchPath path pattern)

/-- `MiddlewareRunner.shouldRunMiddleware`: no matcher means the stage
always applies; a predicate matcher is called directly (and may throw —
this call is made outside the `try` of `run`); a single string is treated
as a one-element list. -/
def shouldRunMiddleware (path : String) (config : MiddlewareConfig) : Except Err Bool :=
  match config.matcher with
  | none => Except.ok true
  | some (MatcherPattern.fn f) => f path
  | some (MatcherPattern.str s) => Except.ok (patternsApply path [s])
  | some (MatcherPattern.list ps) => Except.ok (patternsApply path ps)

/-- Left-to-right, short-circuiting `Array.prototype.some` over `matchPathE`:
a failure thrown by `matchPath` inside `some` propagates. -/
def anyMatchE (path : String) : List String → Except Err Bool
  | [] => Except.ok false
  | p :: ps =>
    match matchPathE path p with
    | Except.error e => Except.error e
    | Except.ok true => Except.ok true
    | Except.ok false => anyMatchE path ps

/-- Full embedding of the pattern-list part of `shouldRunMiddleware`,
keeping the failure path of `matchPath`: the negative patterns are tested
first and a failure there aborts before the positive patterns are
consulted, exactly as in the source. -/
def patternsApplyE (path : String) (patterns : List String) : Except Err Bool :=
  match anyMatchE path (negativePatterns patterns) with
  | Except.error e => Except.error e
  | Except.ok true => Except.ok false
  | Except.ok false =>
    if (positivePatterns patterns).isEmpty then Except.ok true
    else anyMatchE path (positivePatterns patterns)

/-- Full embedding of `MiddlewareRunner.shouldRunMiddleware`, keeping the
failure paths of both a throwing predicate matcher and a string or
sequence matcher whose pattern makes `new RegExp` throw.
`shouldRunMiddleware` above is its restriction to selectors whose
patterns compile. -/
def shouldRunMiddlewareE (path : String) (config : MiddlewareConfig) : Except Err Bool :=
  match config.matcher with
  | none => Except.ok true
  | some (MatcherPattern.fn f) => f path
  | some (MatcherPattern.str s) => patternsApplyE path [s]
  | some (MatcherPattern.list ps) => patternsApplyE path ps

/-- Effective priority used by the sort comparator: `config.priority ?? 0`. -/
def effPriority (m : Middleware) : Int :=
  m.config.priority.getD 0

/-- Ordering induced by the comparator `priorityB - priorityA` of
`MiddlewareRunner.sortMiddlewares`: `a` sorts no later than `b` iff the
comparator is non-positive, i.e. iff `priorityB ≤ priorityA`. -/
def sortLE (a b : Middleware) : Bool :=
  decide (effPriority b ≤ effPriority a)

/-- `MiddlewareRunner.sortMiddlewares`: sort the collection by descending
effective priority. -/
def sortMiddlewares (ms : List Middleware) : List Middleware :=
  ms.mergeSort sortLE

/-- The engine state: the (sorted) stage collection and the debug flag. -/
structure MiddlewareRunner where
  middlewares : List Middleware := []
  debugMode : Bool := false

/-- `MiddlewareRunner.addMiddleware`: append then re-sort. -/
def MiddlewareRunner.addMiddleware (r : MiddlewareRunner) (ms : List Middleware) : MiddlewareRunner :=
  { r with middlewares := sortMiddlewares (r.middlewares ++ ms) }

/-- `MiddlewareRunner.removeMiddleware`: drop every stage whose name equals
the given one. -/
def MiddlewareRunner.removeMiddleware (r : MiddlewareRunner) (n : String) : MiddlewareRunner :=
  { r with middlewares := r.middlewares.filter (fun m => m.config.name ≠ some n) }

/-- The fixed generic failure response of `run`:
`new NextResponse('Internal Server Error', { status: 500 })`. -/
def internalServerError : NextResponse :=
  NextResponse.make "Internal Server Error" 500

/-- The loop body of `MiddlewareRunner.run`, instrumented with a trace of
the stages whose handler was invoked (in invocation order).  For each
stage: `shouldRunMiddleware` is consulted outside the `try`, so an error
it raises propagates; a handler error is caught and either aborts the run
with `internalServerError` (when `skipOnError` is unset or false) or is
swallowed; `shouldContinue = false` stops the run returning
`result.response || context.response`; otherwise a present
`result.response` replaces the context response for the remaining stages. -/
def runLoop (path : String) : MiddlewareContext → List Middleware →
    Except Err NextResponse × List Middleware
  | ctx, [] => (Except.ok ctx.response, [])
  | ctx, m :: rest =>
    match shouldRunMiddleware path m.config with
    | Except.error e => (Except.error e, [])
    | Except.ok false => runLoop path ctx rest
    | Except.ok true =>
      match m.middleware.execute ctx with
      | Except.ok result =>
        if !result.shouldContinue then
          (Except.ok (result.response.getD ctx.response), [m])
        else
          match result.response with
          | some r =>
            let next := runLoop path { request := ctx.request, response := r } rest
            (next.fst, m :: next.snd)
          | none =>
            let next := runLoop path ctx rest
            (next.fst, m :: next.snd)
      | Except.error _ =>
        if !(m.config.skipOnError.getD false) then
          (Except.ok internalServerError, [m])
        else
          let next := runLoop path ctx rest
          (next.fst, m :: next.snd)

/-- `MiddlewareRunner.run`: derive the path, initialize the context with the
request and the pass-through response, and drive the loop. -/
def MiddlewareRunner.run (r : MiddlewareRunner) (request : NextRequest) :
    Except Err NextResponse :=
  (runLoop request.nextUrl.pathname
    { request := request, response := NextResponse.next } r.middlewares).fst

/-- The stages whose handler `run` invokes, in invocation order. -/
def MiddlewareRunner.runTrace (r : MiddlewareRunner) (request : NextRequest) :
    List Middleware :=
  (runLoop request.nextUrl.pathname
    { request := request, response := NextResponse.next } r.middlewares).snd

/-- The loop body of `MiddlewareRunner.run` over the full selector
embedding `shouldRunMiddlewareE`: identical to `runLoop` (without the
trace instrumentation) except that the selector consulted outside the
`try` can also fail for a string or sequence matcher whose pattern makes
`new RegExp` throw, and that failure propagates. -/
def runLoopE (path : String) : MiddlewareContext → List Middleware →
    Except Err NextResponse
  | ctx, [] => Except.ok ctx.response
  | ctx, m :: rest =>
    match shouldRunMiddlewareE path m.config with
    | Except.error e => Except.error e
    | Except.ok false => runLoopE path ctx rest
    | Except.ok true =>
      match m.middleware.execute ctx with
      | Except.ok result =>
        if !result.shouldContinue then
          Except.ok (result.response.getD ctx.response)
        else
          match result.response with
          | some r => runLoopE path { request := ctx.request, response := r } rest
          | none => runLoopE path ctx rest
      | Except.error _ =>
        if !(m.config.skipOnError.getD false) then
          Except.ok internalServerError
        else
          runLoopE path ctx rest

/-- `MiddlewareRunner.run` over the full selector embedding. -/
def MiddlewareRunner.runE (r : MiddlewareRunner) (request : NextRequest) :
    Except Err NextResponse :=
  runLoopE request.nextUrl.pathname
    { request := request, response := NextResponse.next } r.middlewares

/-! ### Helper lemmas about sorting and the execution trace -/

theorem sortMiddlewares_perm (ms : List Middleware) :
    List.Perm (sortMiddlewares ms) ms :=
  List.mergeSort_perm ms sortLE

theorem sortLE_trans (a b c : Middleware) (h1 : sortLE a b) (h2 : sortLE b c) :
    sortLE a c := by
  simp [sortLE] at h1 h2 ⊢
  omega

theorem sortLE_total (a b : Middleware) : sortLE a b || sortLE b a := by
  simp [sortLE]
  omega

theorem sortMiddlewares_pairwise_le (ms : List Middleware) :
    (sortMiddlewares ms).Pairwise (fun a b => effPriority b ≤ effPriority a) := by
  have h := List.sorted_mergeSort sortLE_trans sortLE_total ms
  exact h.imp (fun hab => by simpa [sortLE] using hab)

theorem sortMiddlewares_pairwise_lt (ms : List Middleware)
    (hd : (ms.map effPriority).Nodup) :
    (sortMiddlewares ms).Pairwise (fun a b => effPriority b < effPriority a) := by
  have hnd : ((sortMiddlewares ms).map effPriority).Nodup :=
    ((sortMiddlewares_perm ms).map effPriority).nodup_iff.mpr hd
  have hne : (sortMiddlewares ms).Pairwise (fun a b => effPriority a ≠ effPriority b) :=
    List.pairwise_map.mp hnd
  exact ((sortMiddlewares_pairwise_le ms).and hne).imp
    (fun h => lt_of_le_of_ne h.1 (fun e => h.2 e.symm))

theorem sortMiddlewares_eq_of_perm (ms ms' : List Middleware)
    (hp : List.Perm ms ms') (hd : (ms.map effPriority).Nodup) :
    sortMiddlewares ms = sortMiddlewares ms' := by
  have hd' : (ms'.map effPriority).Nodup := (hp.map effPriority).nodup_iff.mp hd
  have hperm : List.Perm (sortMiddlewares ms) (sortMiddlewares ms') :=
    (sortMiddlewares_perm ms).trans (hp.trans (sortMiddlewares_perm ms').symm)
  letI : IsAntisymm Middleware (fun a b => effPriority b < effPriority a) :=
    ⟨fun a b h1 h2 => absurd (lt_trans h1 h2) (lt_irrefl _)⟩
  exact List.eq_of_perm_of_sorted hperm
    (sortMiddlewares_pairwise_lt ms hd) (sortMiddlewares_pairwise_lt ms' hd')

theorem runLoop_trace_sublist (path : String) :
    ∀ (ms : List Middleware) (ctx : MiddlewareContext),
      (runLoop path ctx ms).snd.Sublist ms := by
  intro ms
  induction ms with
  | nil => intro ctx; simp [runLoop]
  | cons m rest ih =>
    intro ctx
    cases hb : shouldRunMiddleware path m.config with
    | error e => simp [runLoop, hb]
    | ok b =>
      cases b with
      | false =>
        simpa [runLoop, hb] using (ih ctx).cons m
      | true =>
        cases hex : m.middleware.execute ctx with
        | ok result =>
          cases hc : result.shouldContinue with
          | false =>
            simp [runLoop, hb, hex, hc]
          | true =>
            cases hr : result.response with
            | some r =>
              simpa [runLoop, hb, hex, hc, hr] using
                (ih { request := ctx.request, response := r }).cons₂ m
            | none =>
              simpa [runLoop, hb, hex, hc, hr] using (ih ctx).cons₂ m
        | error e =>
          cases hs : m.config.skipOnError.getD false with
          | false =>
            simp [runLoop, hb, hex, hs]
          | true =>
            simpa [runLoop, hb, hex, hs] using (ih ctx).cons₂ m

/-- Key agreement between the two compilation layers: whenever the full
parameter-marker compilation succeeds on a pattern with no residual `.`,
it produces exactly the literal-token compilation; together with the
wildcard analogue below this makes `matchPath` the restriction of
`matchPathE` to such patterns (`matchPathE_agrees`). -/
theorem compileParamE_ok_eq : ∀ (fuel : Nat) (cs : List Char) (ts : List Tok),
    compileParamE fuel cs = Except.ok ts → '.' ∉ cs → compileParamGo fuel cs = ts := by
  intro fuel cs
  induction fuel, cs using compileParamE.induct with
  | case1 cs =>
    intro ts h _
    simp [compileParamE] at h
    simp [compileParamGo, ← h]
  | case2 fuel =>
    intro ts h _
    simp [compileParamE] at h
    simp [compileParamGo, ← h]
  | case3 fuel rest hemp ys hok ih =>
    intro ts h hdot
    rw [compileParamE, if_pos hemp, hok] at h
    simp at h
    subst h
    rw [compileParamGo, if_pos hemp, ih ys hok (fun hr => hdot (List.mem_cons_of_mem _ hr))]
  | case4 fuel rest hemp hbad ih =>
    intro ts h hdot
    rw [compileParamE, if_pos hemp] at h
    cases hin : compileParamE fuel rest with
    | error e => rw [hin] at h; simp at h
    | ok ys => exact (hbad ys hin).elim
  | case5 fuel rest hemp ys hok ih =>
    intro ts h hdot
    have hd' : '.' ∉ rest.dropWhile isWordChar :=
      fun hr => hdot (List.mem_cons_of_mem _ ((List.dropWhile_sublist isWordChar).mem hr))
    rw [compileParamE, if_neg hemp, hok] at h
    simp at h
    subst h
    rw [compileParamGo, if_neg hemp, ih ys hok hd']
  | case6 fuel rest hemp hbad ih =>
    intro ts h hdot
    rw [compileParamE, if_neg hemp] at h
    cases hin : compileParamE fuel (rest.dropWhile isWordChar) with
    | error e => rw [hin] at h; simp at h
    | ok ys => exact (hbad ys hin).elim
  | case7 fuel rest rest' hdw hemp hcont =>
    intro ts h hdot
    rw [compileParamE, hdw] at h
    simp [hemp] at h
    split at h <;> simp at h
  | case8 fuel rest rest' hdw hemp hcont =>
    intro ts h hdot
    rw [compileParamE, hdw] at h
    simp [hemp] at h
    split at h <;> simp at h
  | case9 fuel rest rest' hdw hemp ys hok ih =>
    intro ts h hdot
    have hd' : '.' ∉ rest' := by
      intro hr
      have hmem : '.' ∈ rest.dropWhile isWordChar := by
        rw [hdw]; exact List.mem_cons_of_mem _ hr
      exact hdot (List.mem_cons_of_mem _ ((List.dropWhile_sublist isWordChar).mem hmem))
    rw [compileParamE, hdw] at h
    simp [hemp, hok] at h
    subst h
    rw [compileParamGo, hdw]
    simp [hemp, ih ys hok hd']
  | case10 fuel rest rest' hdw hemp hbad ih =>
    intro ts h hdot
    rw [compileParamE, hdw] at h
    simp [hemp] at h
    cases hin : compileParamE fuel rest' with
    | error e => rw [hin] at h; simp at h
    | ok ys => exact (hbad ys hin).elim
  | case11 fuel rest hcont hnot =>
    intro ts h hdot
    rw [compileParamE] at h
    split at h
    · rename_i rest' heq
      exact (hnot rest' heq).elim
    · split at h <;> simp at h
  | case12 fuel rest hcont hnot =>
    intro ts h hdot
    rw [compileParamE] at h
    split at h
    · rename_i rest' heq
      exact (hnot rest' heq).elim
    · split at h <;> simp at h
  | case13 fuel rest ys hok ih =>
    intro ts h hdot
    rw [compileParamE, hok] at h
    simp at h
    subst h
    rw [compileParamGo, ih ys hok (fun hr => hdot (List.mem_cons_of_mem _ hr))]
  | case14 fuel rest hbad ih =>
    intro ts h hdot
    rw [compileParamE] at h
    cases hin : compileParamE fuel rest with
    | error e => rw [hin] at h; simp at h
    | ok ys => exact (hbad ys hin).elim
  | case15 fuel rest ys hok ih =>
    intro ts h hdot
    exact absurd (List.mem_cons_self _ _) hdot
  | case16 fuel rest hbad ih =>
    intro ts h hdot
    exact absurd (List.mem_cons_self _ _) hdot
  | case17 fuel c rest hc1 hc2 hc3 hc4 hmem =>
    intro ts h hdot
    simp [compileParamE, hc1, hc2, hc3, hc4, hmem] at h
  | case18 fuel c rest hc1 hc2 hc3 hc4 hmem ys hok ih =>
    intro ts h hdot
    have hd' : '.' ∉ rest := fun hr => hdot (List.mem_cons_of_mem _ hr)
    simp only [compileParamE, hc1, hc2, hc3, hc4] at h
    rw [if_neg hmem, hok] at h
    simp at h
    subst h
    simp only [compileParamGo, hc1, hc2, hc3]
    rw [ih ys hok hd']
  | case19 fuel c rest hc1 hc2 hc3 hc4 hmem hbad ih =>
    intro ts h hdot
    simp only [compileParamE, hc1, hc2, hc3, hc4] at h
    rw [if_neg hmem] at h
    cases hin : compileParamE fuel rest with
    | error e => rw [hin] at h; simp at h
    | ok ys => exact (hbad ys hin).elim

/-- Wildcard-branch analogue of `compileParamE_ok_eq`. -/
theorem compileWildcardE_ok_eq : ∀ (cs : List Char) (ts : List Tok),
    compileWildcardE cs = Except.ok ts → '.' ∉ cs → compileWildcard cs = ts := by
  intro cs
  induction cs using compileWildcardE.induct with
  | case1 =>
    intro ts h _
    simp [compileWildcardE] at h
    simp [compileWildcard, ← h]
  | case2 rest ys hok ih =>
    intro ts h hdot
    rw [compileWildcardE, hok] at h
    simp at h
    subst h
    rw [compileWildcard, ih ys hok (fun hr => hdot (List.mem_cons_of_mem _ hr))]
  | case3 rest hbad ih =>
    intro ts h hdot
    rw [compileWildcardE] at h
    cases hin : compileWildcardE rest with
    | error e => rw [hin] at h; simp at h
    | ok ys => exact (hbad ys hin).elim
  | case4 rest ys hok ih =>
    intro ts h hdot
    rw [compileWildcardE, hok] at h
    simp at h
    subst h
    rw [compileWildcard, ih ys hok (fun hr => hdot (List.mem_cons_of_mem _ hr))]
  | case5 rest hbad ih =>
    intro ts h hdot
    rw [compileWildcardE] at h
    cases hin : compileWildcardE rest with
    | error e => rw [hin] at h; simp at h
    | ok ys => exact (hbad ys hin).elim
  | case6 rest ys hok ih =>
    intro ts h hdot
    exact absurd (List.mem_cons_self _ _) hdot
  | case7 rest hbad ih =>
    intro ts h hdot
    exact absurd (List.mem_cons_self _ _) hdot
  | case8 c rest hc1 hc2 hc3 hmem =>
    intro ts h hdot
    simp [compileWildcardE, hc1, hc2, hc3, hmem] at h
  | case9 c rest hc1 hc2 hc3 hmem ys hok ih =>
    intro ts h hdot
    have hd' : '.' ∉ rest := fun hr => hdot (List.mem_cons_of_mem _ hr)
    simp only [compileWildcardE, hc1, hc2, hc3] at h
    rw [if_neg hmem, hok] at h
    simp at h
    subst h
    simp only [compileWildcard, hc1, hc2, hc3]
    rw [ih ys hok hd']
  | case10 c rest hc1 hc2 hc3 hmem hbad ih =>
    intro ts h hdot
    simp only [compileWildcardE, hc1, hc2, hc3] at h
    rw [if_neg hmem] at h
    cases hin : compileWildcardE rest with
    | error e => rw [hin] at h; simp at h
    | ok ys => exact (hbad ys hin).elim

/-- On a pattern with no residual `.`, whenever the full matcher
`matchPathE` returns a boolean (the pattern compiles), the restricted
`matchPath` computes that same boolean. -/
theorem matchPathE_agrees (path pattern : String) (b : Bool)
    (hdot : pattern.toList.contains '.' = false)
    (h : matchPathE path pattern = Except.ok b) :
    matchPath path pattern = b := by
  have hdotm : '.' ∉ pattern.toList := by simpa using hdot
  by_cases h1 : (pattern == "*") = true
  · rw [matchPathE, if_pos h1] at h
    rw [matchPath, if_pos h1]
    simpa using h.symm
  · by_cases h2 : (pattern.toList.contains ':' || pattern.toList.contains '[') = true
    · rw [matchPathE, if_neg h1, if_pos h2] at h
      rw [matchPath, if_neg h1, if_pos h2]
      cases hcp : compileParamRegex pattern.toList with
      | error e => rw [hcp] at h; simp at h
      | ok ts =>
        rw [hcp] at h
        simp at h
        subst h
        rw [show compileParam pattern.toList = ts from
          compileParamE_ok_eq _ _ _ hcp hdotm]
        rfl
    · by_cases h3 : (pattern.toList.contains '*') = true
      · rw [matchPathE, if_neg h1, if_neg h2, if_pos h3] at h
        rw [matchPath, if_neg h1, if_neg h2, if_pos h3]
        cases hcw : compileWildcardE pattern.toList with
        | error e => rw [hcw] at h; simp at h
        | ok ts =>
          rw [hcw] at h
          simp at h
          subst h
          rw [compileWildcardE_ok_eq _ _ hcw hdotm]
          rfl
      · rw [matchPathE, if_neg h1, if_neg h2, if_neg h3] at h
        rw [matchPath, if_neg h1, if_neg h2, if_neg h3]
        simpa using h

/-! ### Concrete stages used by witnesses and counterexamples -/

/-- A handler that succeeds, continues, and replaces nothing. -/
def passHandler : MiddlewareFunction :=
  { execute := fun _ => Except.ok { shouldContinue := true, response := none } }

def stageA : Middleware :=
  { middleware := passHandler, config := { priority := some 10, name := some "A" } }

def stageB : Middleware :=
  { middleware := passHandler, config := { priority := some 100, name := some "B" } }

def stageC : Middleware :=
  { middleware := passHandler, config := { priority := some 50, name := some "C" } }

/-- A stage whose predicate selector throws. -/
def failingPredicateStage : Middleware :=
  { middleware := passHandler,
    config := { matcher := some (MatcherPattern.fn (fun _ => Except.error "selector raised")) } }

/-- A stage whose handler throws, with a string selector and `skipOnError` unset. -/
def errorHandlerStage : Middleware :=
  { middleware := { execute := fun _ => Except.error "handler raised" },
    config := { matcher := some (MatcherPattern.str "*") } }

/-! ### C2 -/

/-- C2: for stages with pairwise-distinct effective priorities, Run invokes
their handlers in strictly descending-priority order, regardless of
registration order (permuting the registered stages yields the same sorted
collection); a stage with no declared priority is ordered as if its
priority were 0 (a priority-50 stage sorts before it either way round). -/
theorem run_descending_priority_order (ms : List Middleware) (req : NextRequest)
    (hd : (ms.map effPriority).Nodup) :
    (((MiddlewareRunner.mk [] false).addMiddleware ms).runTrace req).Pairwise
      (fun a b => effPriority b < effPriority a)
    ∧ (∀ ms', List.Perm ms ms' → sortMiddlewares ms = sortMiddlewares ms')
    ∧ (∀ x y : Middleware, x.config.priority = some 50 → y.config.priority = none →
        sortMiddlewares [y, x] = [x, y] ∧ sortMiddlewares [x, y] = [x, y]) := by
  refine ⟨?_, ?_, ?_⟩
  · have hmid : (((MiddlewareRunner.mk [] false).addMiddleware ms)).middlewares
        = sortMiddlewares ms := by
      simp [MiddlewareRunner.addMiddleware]
    have hsub := runLoop_trace_sublist req.nextUrl.pathname (sortMiddlewares ms)
      { request := req, response := NextResponse.next }
    have hpw := sortMiddlewares_pairwise_lt ms hd
    unfold MiddlewareRunner.runTrace
    rw [hmid]
    exact hpw.sublist hsub
  · intro ms' hp
    exact sortMiddlewares_eq_of_perm ms ms' hp hd
  · intro x y hx hy
    have hxy : sortMiddlewares [x, y] = [x, y] := by
      unfold sortMiddlewares
      apply List.mergeSort_of_sorted
      simp [sortLE, effPriority, hx, hy]
    have hnd : ([y, x].map effPriority).Nodup := by
      simp [effPriority, hx, hy]
    have heq := sortMiddlewares_eq_of_perm [y, x] [x, y] (List.Perm.swap x y []) hnd
    exact ⟨heq.trans hxy, hxy⟩

/-- C2 witness: the spec's example A(10), B(100), C(50). -/
theorem run_descending_priority_order_witness :
    (([stageA, stageB, stageC].map effPriority).Nodup)
    ∧ ((((MiddlewareRunner.mk [] false).addMiddleware [stageA, stageB, stageC]).runTrace
          { nextUrl := { pathname := "/" } }).Pairwise
        (fun a b => effPriority b < effPriority a)
      ∧ (∀ ms', List.Perm [stageA, stageB, stageC] ms' →
          sortMiddlewares [stageA, stageB, stageC] = sortMiddlewares ms')
      ∧ (∀ x y : Middleware, x.config.priority = some 50 → y.config.priority = none →
          sortMiddlewares [y, x] = [x, y] ∧ sortMiddlewares [x, y] = [x, y])) :=
  ⟨by decide,
   run_descending_priority_order [stageA, stageB, stageC]
     { nextUrl := { pathname := "/" } } (by decide)⟩

/-! ### C1 -/

/-- A stage whose selector evaluation succeeds on the given path: it is
absent, it is a predicate that returns on that path, or it is a string or
sequence selector whose patterns the regex construction accepts.  A
malformed pattern such as `/a[` is not safe: `new RegExp` throws on it,
at the `shouldRunMiddleware` call site outside the `try`. -/
def selectorSafeOn (path : String) (m : Middleware) : Prop :=
  ∃ b, shouldRunMiddlewareE path m.config = Except.ok b

theorem runLoopE_ok_of_selectorSafe (path : String) :
    ∀ (ms : List Middleware) (ctx : MiddlewareContext),
      (∀ m ∈ ms, selectorSafeOn path m) →
      ∃ resp, runLoopE path ctx ms = Except.ok resp := by
  intro ms
  induction ms with
  | nil => intro ctx _; exact ⟨ctx.response, rfl⟩
  | cons m rest ih =>
    intro ctx h
    obtain ⟨b, hb⟩ := h m (List.mem_cons_self m rest)
    have hrest : ∀ m' ∈ rest, selectorSafeOn path m' :=
      fun m' hm' => h m' (List.mem_cons_of_mem m hm')
    cases b with
    | false => simpa [runLoopE, hb] using ih ctx hrest
    | true =>
      cases hex : m.middleware.execute ctx with
      | error e =>
        cases hs : m.config.skipOnError.getD false with
        | false => exact ⟨internalServerError, by simp [runLoopE, hb, hex, hs]⟩
        | true => simpa [runLoopE, hb, hex, hs] using ih ctx hrest
      | ok result =>
        cases hc : result.shouldContinue with
        | false =>
          exact ⟨result.response.getD ctx.response, by simp [runLoopE, hb, hex, hc]⟩
        | true =>
          cases hr : result.response with
          | none => simpa [runLoopE, hb, hex, hc, hr] using ih ctx hrest
          | some r =>
            simpa [runLoopE, hb, hex, hc, hr] using
              ih { request := ctx.request, response := r } hrest

/-- C1 (amended): Run returns a response and converts every handler
failure into a response whenever no stage's selector evaluation itself
fails on the request's path.  (As literally stated the claim is false: a
failure raised during selector evaluation — a throwing predicate, or a
string/sequence pattern on which `new RegExp` throws — escapes `run`,
because `shouldRunMiddleware` is called outside the `try`; see the
counterexample below.) -/
theorem run_total_of_selector_safe (r : MiddlewareRunner) (req : NextRequest)
    (h : ∀ m ∈ r.middlewares, selectorSafeOn req.nextUrl.pathname m) :
    ∃ resp, r.runE req = Except.ok resp :=
  runLoopE_ok_of_selectorSafe _ _ _ h

/-- A stage whose string selector holds a malformed pattern: the compiled
regex `^/a[$` has an unterminated character class, so `new RegExp`
throws. -/
def malformedSelectorStage : Middleware :=
  { middleware := passHandler,
    config := { matcher := some (MatcherPattern.str "/a[") } }

/-- C1 counterexample: a failure raised during selector evaluation escapes
`run` — for a predicate selector that throws, and equally for a string
selector whose pattern makes the regex construction throw. -/
theorem run_error_escapes_through_selector :
    (MiddlewareRunner.mk [failingPredicateStage] false).runE
      { nextUrl := { pathname := "/api" } } = Except.error "selector raised"
    ∧ (MiddlewareRunner.mk [malformedSelectorStage] false).runE
      { nextUrl := { pathname := "/aX" } } = Except.error "SyntaxError" :=
  ⟨rfl, rfl⟩

/-- C1 witness: a stage with a well-formed string selector and a throwing
handler still yields a response (the generic error response). -/
theorem run_total_of_selector_safe_witness :
    (∀ m ∈ (MiddlewareRunner.mk [errorHandlerStage] false).middlewares,
        selectorSafeOn "/api" m)
    ∧ ∃ resp, (MiddlewareRunner.mk [errorHandlerStage] false).runE
        { nextUrl := { pathname := "/api" } } = Except.ok resp := by
  have hsafe : ∀ m ∈ (MiddlewareRunner.mk [errorHandlerStage] false).middlewares,
      selectorSafeOn "/api" m := by
    intro m hm
    have hm' : m = errorHandlerStage := by simpa using hm
    subst hm'
    exact ⟨true, rfl⟩
  exact ⟨hsafe, run_total_of_selector_safe (MiddlewareRunner.mk [errorHandlerStage] false)
    { nextUrl := { pathname := "/api" } } hsafe⟩

/-! ### C3 through C6: the execution loop, stage by stage -/

/-- Request and context fixtures for witnesses. -/
def reqW : NextRequest := { nextUrl := { pathname := "/x" } }

def ctxW : MiddlewareContext := { request := reqW, response := NextResponse.next }

/-- Result of the stopping stage below. -/
def stopResult : MiddlewareResult :=
  { shouldContinue := false, response := some (NextResponse.make "halt" 200) }

/-- A stage that stops the chain with its own response. -/
def stopStage : Middleware :=
  { middleware := { execute := fun _ => Except.ok stopResult }, config := {} }

/-- Result of the replacing stage below. -/
def replaceResult : MiddlewareResult :=
  { shouldContinue := true, response := some (NextResponse.make "replaced" 200) }

/-- A stage that continues and replaces the response. -/
def replaceStage : Middleware :=
  { middleware := { execute := fun _ => Except.ok replaceResult }, config := {} }

/-- A stage whose handler throws with `skipOnError` unset. -/
def fatalStage : Middleware :=
  { middleware := { execute := fun _ => Except.error "boom" },
    config := {} }

/-- A stage whose handler throws with `skipOnError` set to true. -/
def recoverStage : Middleware :=
  { middleware := { execute := fun _ => Except.error "boom" },
    config := { skipOnError := some true } }

/-- C3: a handler completing with continue=false stops the run immediately:
the run returns the stage's own response when present, else the current
context's response, and no later stage's handler is invoked (the trace of
the remaining pipeline is exactly the stopping stage). -/
theorem run_stops_on_continue_false (path : String) (ctx : MiddlewareContext)
    (m : Middleware) (rest : List Middleware) (ores : Option NextResponse)
    (happ : shouldRunMiddleware path m.config = Except.ok true)
    (hexec : m.middleware.execute ctx
      = Except.ok { shouldContinue := false, response := ores }) :
    runLoop path ctx (m :: rest) = (Except.ok (ores.getD ctx.response), [m]) := by
  simp [runLoop, happ, hexec]

/-- C3 witness: a stopping stage followed by another stage. -/
theorem run_stops_on_continue_false_witness :
    shouldRunMiddleware "/x" stopStage.config = Except.ok true
    ∧ stopStage.middleware.execute ctxW
        = Except.ok { shouldContinue := false, response := some (NextResponse.make "halt" 200) }
    ∧ runLoop "/x" ctxW (stopStage :: [stageA])
        = (Except.ok ((some (NextResponse.make "halt" 200)).getD ctxW.response), [stopStage]) :=
  ⟨rfl, rfl,
   run_stops_on_continue_false "/x" ctxW stopStage [stageA]
     (some (NextResponse.make "halt" 200)) rfl rfl⟩

/-- C4: a handler failure with `skipOnError` unset or false aborts the run
with the fixed generic server-error response (status 500, fixed body text),
and no later stage's handler is invoked. -/
theorem run_aborts_on_fatal_error (path : String) (ctx : MiddlewareContext)
    (m : Middleware) (rest : List Middleware) (e : Err)
    (happ : shouldRunMiddleware path m.config = Except.ok true)
    (hexec : m.middleware.execute ctx = Except.error e)
    (hfatal : m.config.skipOnError.getD false = false) :
    runLoop path ctx (m :: rest) = (Except.ok internalServerError, [m])
    ∧ internalServerError = NextResponse.make "Internal Server Error" 500 := by
  exact ⟨by simp [runLoop, happ, hexec, hfatal], rfl⟩

/-- C4 witness: a fatally failing stage followed by another stage. -/
theorem run_aborts_on_fatal_error_witness :
    shouldRunMiddleware "/x" fatalStage.config = Except.ok true
    ∧ fatalStage.middleware.execute ctxW = Except.error "boom"
    ∧ fatalStage.config.skipOnError.getD false = false
    ∧ (runLoop "/x" ctxW (fatalStage :: [stageA]) = (Except.ok internalServerError, [fatalStage])
      ∧ internalServerError = NextResponse.make "Internal Server Error" 500) :=
  ⟨rfl, rfl, rfl,
   run_aborts_on_fatal_error "/x" ctxW fatalStage [stageA] "boom" rfl rfl rfl⟩

/-- C5: a handler failure with `skipOnError = true` leaves the context
unchanged and the remaining stages run exactly as if the failing stage had
been skipped: the run's result is the result of running the rest from the
same context, and the trace continues into the rest. -/
theorem run_continues_on_recoverable_error (path : String) (ctx : MiddlewareContext)
    (m : Middleware) (rest : List Middleware) (e : Err)
    (happ : shouldRunMiddleware path m.config = Except.ok true)
    (hexec : m.middleware.execute ctx = Except.error e)
    (hskip : m.config.skipOnError = some true) :
    runLoop path ctx (m :: rest)
      = ((runLoop path ctx rest).fst, m :: (runLoop path ctx rest).snd) := by
  simp [runLoop, happ, hexec, hskip]

/-- C5 witness: a recoverably failing stage followed by a stopping stage. -/
theorem run_continues_on_recoverable_error_witness :
    shouldRunMiddleware "/x" recoverStage.config = Except.ok true
    ∧ recoverStage.middleware.execute ctxW = Except.error "boom"
    ∧ recoverStage.config.skipOnError = some true
    ∧ runLoop "/x" ctxW (recoverStage :: [stopStage])
        = ((runLoop "/x" ctxW [stopStage]).fst, recoverStage :: (runLoop "/x" ctxW [stopStage]).snd) :=
  ⟨rfl, rfl, rfl,
   run_continues_on_recoverable_error "/x" ctxW recoverStage [stopStage] "boom" rfl rfl rfl⟩

/-- C6: a handler completing with continue=true hands the next stage a
context whose request is the same reference and whose response is the
replacement when one is present, else the unchanged previous response. -/
theorem run_propagates_replacement_response (path : String) (ctx : MiddlewareContext)
    (m : Middleware) (rest : List Middleware) (ores : Option NextResponse)
    (happ : shouldRunMiddleware path m.config = Except.ok true)
    (hexec : m.middleware.execute ctx
      = Except.ok { shouldContinue := true, response := ores }) :
    runLoop path ctx (m :: rest)
      = ((runLoop path { request := ctx.request, response := ores.getD ctx.response } rest).fst,
         m :: (runLoop path { request := ctx.request, response := ores.getD ctx.response } rest).snd) := by
  cases ores with
  | some r => simp [runLoop, happ, hexec]
  | none => simp [runLoop, happ, hexec]

/-- C6 witness: a replacing stage followed by another stage. -/
theorem run_propagates_replacement_response_witness :
    shouldRunMiddleware "/x" replaceStage.config = Except.ok true
    ∧ replaceStage.middleware.execute ctxW
        = Except.ok { shouldContinue := true, response := some (NextResponse.make "replaced" 200) }
    ∧ runLoop "/x" ctxW (replaceStage :: [stageA])
        = ((runLoop "/x"
              { request := ctxW.request,
                response := (some (NextResponse.make "replaced" 200)).getD ctxW.response }
              [stageA]).fst,
           replaceStage :: (runLoop "/x"
              { request := ctxW.request,
                response := (some (NextResponse.make "replaced" 200)).getD ctxW.response }
              [stageA]).snd) :=
  ⟨rfl, rfl,
   run_propagates_replacement_response "/x" ctxW replaceStage [stageA]
     (some (NextResponse.make "replaced" 200)) rfl rfl⟩

/-! ### C7 through C10: the matcher -/

/-- A one-pattern string selector used by the C7 witness. -/
def starStringConfig : MiddlewareConfig :=
  { matcher := some (MatcherPattern.str "*") }

/-- The spec's example selector, used by the C7 witness. -/
def exampleListConfig : MiddlewareConfig :=
  { matcher := some (MatcherPattern.list ["!/api/public/*", "/api/*"]) }

/-- C7: for a string or sequence selector, a matching negative pattern
(`!` stripped before matching) excludes the stage unconditionally; with no
negative match and zero positive patterns the stage applies; otherwise it
applies iff some positive pattern matches.  The spec's example selector
`['!/api/public/*', '/api/*']` admits `/api/users` and `/api/posts` but
not `/api/public/data`. -/
theorem selector_negative_positive_semantics (path s : String) (ps : List String)
    (cfg cfg' : MiddlewareConfig)
    (hs : cfg.matcher = some (MatcherPattern.str s))
    (hl : cfg'.matcher = some (MatcherPattern.list ps)) :
    shouldRunMiddleware path cfg = Except.ok (patternsApply path [s])
    ∧ shouldRunMiddleware path cfg' = Except.ok (patternsApply path ps)
    ∧ ((∃ n ∈ negativePatterns ps, matchPath path n = true) → patternsApply path ps = false)
    ∧ ((∀ n ∈ negativePatterns ps, matchPath path n = false) → positivePatterns ps = [] →
        patternsApply path ps = true)
    ∧ ((∀ n ∈ negativePatterns ps, matchPath path n = false) → positivePatterns ps ≠ [] →
        (patternsApply path ps = true ↔ ∃ p ∈ positivePatterns ps, matchPath path p = true))
    ∧ patternsApply "/api/users" ["!/api/public/*", "/api/*"] = true
    ∧ patternsApply "/api/posts" ["!/api/public/*", "/api/*"] = true
    ∧ patternsApply "/api/public/data" ["!/api/public/*", "/api/*"] = false := by
  refine ⟨by simp [shouldRunMiddleware, hs], by simp [shouldRunMiddleware, hl],
    ?_, ?_, ?_, by decide, by decide, by decide⟩
  · intro hneg
    have hany : ((negativePatterns ps).any fun pattern => matchPath path pattern) = true :=
      List.any_eq_true.mpr hneg
    simp [patternsApply, hany]
  · intro hneg hpos
    have hany : ((negativePatterns ps).any fun pattern => matchPath path pattern) = false := by
      rw [List.any_eq_false]
      intro n hn
      simp [hneg n hn]
    simp [patternsApply, hany, hpos]
  · intro hneg hpos
    have hany : ((negativePatterns ps).any fun pattern => matchPath path pattern) = false := by
      rw [List.any_eq_false]
      intro n hn
      simp [hneg n hn]
    have hie : (positivePatterns ps).isEmpty = false := by
      cases hp : positivePatterns ps with
      | nil => exact absurd hp hpos
      | cons a l => simp
    rw [patternsApply, hany, hie]
    simp [List.any_eq_true]

/-- C7 witness: the spec's example selector at path `/api/users`. -/
theorem selector_negative_positive_semantics_witness :
    starStringConfig.matcher = some (MatcherPattern.str "*")
    ∧ exampleListConfig.matcher = some (MatcherPattern.list ["!/api/public/*", "/api/*"])
    ∧ (shouldRunMiddleware "/api/users" starStringConfig
          = Except.ok (patternsApply "/api/users" ["*"])
      ∧ shouldRunMiddleware "/api/users" exampleListConfig
          = Except.ok (patternsApply "/api/users" ["!/api/public/*", "/api/*"])
      ∧ ((∃ n ∈ negativePatterns ["!/api/public/*", "/api/*"], matchPath "/api/users" n = true) →
          patternsApply "/api/users" ["!/api/public/*", "/api/*"] = false)
      ∧ ((∀ n ∈ negativePatterns ["!/api/public/*", "/api/*"], matchPath "/api/users" n = false) →
          positivePatterns ["!/api/public/*", "/api/*"] = [] →
          patternsApply "/api/users" ["!/api/public/*", "/api/*"] = true)
      ∧ ((∀ n ∈ negativePatterns ["!/api/public/*", "/api/*"], matchPath "/api/users" n = false) →
          positivePatterns ["!/api/public/*", "/api/*"] ≠ [] →
          (patternsApply "/api/users" ["!/api/public/*", "/api/*"] = true ↔
            ∃ p ∈ positivePatterns ["!/api/public/*", "/api/*"], matchPath "/api/users" p = true))
      ∧ patternsApply "/api/users" ["!/api/public/*", "/api/*"] = true
      ∧ patternsApply "/api/posts" ["!/api/public/*", "/api/*"] = true
      ∧ patternsApply "/api/public/data" ["!/api/public/*", "/api/*"] = false) :=
  ⟨rfl, rfl,
   selector_negative_positive_semantics "/api/users" "*" ["!/api/public/*", "/api/*"]
     starStringConfig exampleListConfig rfl rfl⟩

/-- C8 counterexample: residual regex metacharacters stay live in the
compiled regex, so the claimed token-replacement reading is false of the
program: the unescaped `.` in `/api/v1.0/:id` matches any character,
hence the source accepts the path `/api/v1X0/abc`, while the pattern with
its marker replaced and the rest read literally rejects it; and a stray
`[` makes the regex construction throw instead of matching anything. -/
theorem matchPath_param_marker_counterexample :
    matchPathE "/api/v1X0/abc" "/api/v1.0/:id" = Except.ok true
    ∧ toksMatch (compileParam "/api/v1.0/:id".toList) "/api/v1X0/abc".toList = false
    ∧ matchPathE "/aX" "/a[" = Except.error "SyntaxError" :=
  ⟨rfl, by decide, rfl⟩

/-- C8 (amended): for a pattern containing a parameter marker whose
compilation succeeds and which contains no residual `.`, matching is the
claimed anchored token semantics — each marker is one-or-more non-slash
characters, each literal `*` an unrestricted wildcard — and the
parameter-marker branch takes precedence over the generic wildcard branch
even when the pattern also contains `*` (patterns `:id*` and `/a/:id/*`
below); residual regex metacharacters are instead live regex syntax, and
a malformed one makes the regex construction throw (see the
counterexample).  The spec's examples: `/api/users/:id` matches
`/api/users/123` and `/api/users/abc` but not `/api/users`; `/users/[id]`
matches `/users/123`. -/
theorem matchPath_param_marker_semantics (path pattern : String) (ts : List Tok)
    (h : pattern.toList.contains ':' = true ∨ pattern.toList.contains '[' = true)
    (hc : compileParamRegex pattern.toList = Except.ok ts)
    (hdot : pattern.toList.contains '.' = false) :
    matchPathE path pattern = Except.ok (toksMatch (compileParam pattern.toList) path.toList)
    ∧ matchPath path pattern = toksMatch (compileParam pattern.toList) path.toList
    ∧ matchPathE "/api/users/123" "/api/users/:id" = Except.ok true
    ∧ matchPathE "/api/users/abc" "/api/users/:id" = Except.ok true
    ∧ matchPathE "/api/users" "/api/users/:id" = Except.ok false
    ∧ matchPathE "/users/123" "/users/[id]" = Except.ok true
    ∧ matchPathE "abc" ":id*" = Except.ok true
    ∧ matchPathE "/a/x/y/z" "/a/:id/*" = Except.ok true := by
  have hne : (pattern == "*") = false := by
    refine beq_eq_false_iff_ne.mpr ?_
    rintro rfl
    rcases h with h | h
    · exact absurd h (by decide)
    · exact absurd h (by decide)
  have hmem : ':' ∈ pattern.data ∨ '[' ∈ pattern.data := by
    rcases h with h | h
    · exact Or.inl (by simpa using h)
    · exact Or.inr (by simpa using h)
  have hts : compileParam pattern.toList = ts :=
    compileParamE_ok_eq _ _ _ hc (by simpa using hdot)
  have hc' : compileParamRegex pattern.data = Except.ok ts := hc
  have hts' : compileParam pattern.data = ts := hts
  refine ⟨?_, ?_, rfl, rfl, rfl, rfl, rfl, rfl⟩
  · simp [matchPathE, hne, hmem, hc', hts']
  · simp [matchPath, hne, hmem]

/-- C8 witness: pattern `/api/users/:id` at path `/api/users/123`. -/
theorem matchPath_param_marker_semantics_witness :
    ("/api/users/:id".toList.contains ':' = true ∨ "/api/users/:id".toList.contains '[' = true)
    ∧ compileParamRegex "/api/users/:id".toList
        = Except.ok ("/api/users/".toList.map Tok.lit ++ [Tok.nonSlash])
    ∧ "/api/users/:id".toList.contains '.' = false
    ∧ (matchPathE "/api/users/123" "/api/users/:id"
          = Except.ok (toksMatch (compileParam "/api/users/:id".toList) "/api/users/123".toList)
      ∧ matchPath "/api/users/123" "/api/users/:id"
          = toksMatch (compileParam "/api/users/:id".toList) "/api/users/123".toList
      ∧ matchPathE "/api/users/123" "/api/users/:id" = Except.ok true
      ∧ matchPathE "/api/users/abc" "/api/users/:id" = Except.ok true
      ∧ matchPathE "/api/users" "/api/users/:id" = Except.ok false
      ∧ matchPathE "/users/123" "/users/[id]" = Except.ok true
      ∧ matchPathE "abc" ":id*" = Except.ok true
      ∧ matchPathE "/a/x/y/z" "/a/:id/*" = Except.ok true) :=
  ⟨Or.inl (by decide), rfl, by decide,
   matchPath_param_marker_semantics "/api/users/123" "/api/users/:id"
     ("/api/users/".toList.map Tok.lit ++ [Tok.nonSlash])
     (Or.inl (by decide)) rfl (by decide)⟩

/-- C9: a plain literal pattern (no `*`, `?`, `:` or `[`, hence also not the
literal `*`) matches a path iff the path equals it or starts with it;
in particular `/api/users` matches `/api/users` and `/api/users/1` but not
`/api/posts`. -/
theorem matchPath_literal_prefix_semantics (path pattern : String)
    (hstar : pattern.toList.contains '*' = false)
    (_hq : pattern.toList.contains '?' = false)
    (hcolon : pattern.toList.contains ':' = false)
    (hbracket : pattern.toList.contains '[' = false) :
    matchPath path pattern = (path == pattern || strStartsWith path pattern)
    ∧ matchPath "/api/users" "/api/users" = true
    ∧ matchPath "/api/users/1" "/api/users" = true
    ∧ matchPath "/api/posts" "/api/users" = false := by
  refine ⟨?_, by decide, by decide, by decide⟩
  have hne : (pattern == "*") = false := by
    refine beq_eq_false_iff_ne.mpr ?_
    rintro rfl
    exact absurd hstar (by decide)
  have hs' : '*' ∉ pattern.data := by simpa using hstar
  have hc' : ':' ∉ pattern.data := by simpa using hcolon
  have hb' : '[' ∉ pattern.data := by simpa using hbracket
  simp [matchPath, hne, hs', hc', hb']

/-- C9 witness: pattern `/api/users` at path `/api/users/1`. -/
theorem matchPath_literal_prefix_semantics_witness :
    "/api/users".toList.contains '*' = false
    ∧ "/api/users".toList.contains '?' = false
    ∧ "/api/users".toList.contains ':' = false
    ∧ "/api/users".toList.contains '[' = false
    ∧ (matchPath "/api/users/1" "/api/users"
          = ("/api/users/1" == "/api/users" || strStartsWith "/api/users/1" "/api/users")
      ∧ matchPath "/api/users" "/api/users" = true
      ∧ matchPath "/api/users/1" "/api/users" = true
      ∧ matchPath "/api/posts" "/api/users" = false) :=
  ⟨by decide, by decide, by decide, by decide,
   matchPath_literal_prefix_semantics "/api/users/1" "/api/users"
     (by decide) (by decide) (by decide) (by decide)⟩

/-- An empty pattern-list selector and an absent selector, for C10. -/
def emptyListConfig : MiddlewareConfig :=
  { matcher := some (MatcherPattern.list []) }

def noMatcherConfig : MiddlewareConfig := {}

/-- C10: a stage whose selector is the empty pattern list applies to every
path (no negative pattern and zero positive patterns), exactly like a
stage with no selector at all. -/
theorem empty_selector_applies_everywhere (path : String) (cfg cfg' : MiddlewareConfig)
    (h : cfg.matcher = some (MatcherPattern.list []))
    (h' : cfg'.matcher = none) :
    shouldRunMiddleware path cfg = Except.ok true
    ∧ shouldRunMiddleware path cfg' = Except.ok true := by
  constructor
  · simp [shouldRunMiddleware, h, patternsApply, negativePatterns, positivePatterns]
  · simp [shouldRunMiddleware, h']

/-- C10 witness: the two selectors at path `/dashboard`. -/
theorem empty_selector_applies_everywhere_witness :
    emptyListConfig.matcher = some (MatcherPattern.list [])
    ∧ noMatcherConfig.matcher = none
    ∧ (shouldRunMiddleware "/dashboard" emptyListConfig = Except.ok true
      ∧ shouldRunMiddleware "/dashboard" noMatcherConfig = Except.ok true) :=
  ⟨rfl, rfl,
   empty_selector_applies_everywhere "/dashboard" emptyListConfig noMatcherConfig rfl rfl⟩
